import Mathlib

/-!
Shallow embedding of the `localcache` package: an in-process key-value
cache with per-entry TTL, lazy expiration on read, an optional
background sweep, statistics counters, and a register-once eviction
callback.

Modelling choices:
* Go `time.Time`/`UnixNano` timestamps and `time.Duration` values are
  `Int` (nanoseconds).  Each operation that consults the clock takes an
  explicit `now : Int` parameter.
* The Go map `map[Key]Entry` is an association list
  `List (Key × Entry)`; `delete` removes every pair with the key and
  `m[k] = v` replaces any existing pair.  Go map keys are unique, so on
  states reachable from the empty cache the two representations agree.
* The eviction callback is not interpreted: the cache stores an
  `Option Nat` (`some id` once a function is registered), and every
  operation returns the list of `(key, entry)` pairs the callback was
  invoked on, in invocation order.
* Stored values are a Go-style dynamic value `GoValue`; float payloads
  are carried as opaque bit patterns, since no verified path performs
  float arithmetic.  A failed Go type assertion `e.(float64)` is
  modelled as the `goPanic` outcome.
* `panic(ErrDuplicateEvictedFunc)` in `SetEvictedFunc` is modelled by
  returning `none`.
-/

namespace LocalCacheModel

/-- Keys; the source uses an opaque comparable key type. -/
abbrev Key := String

/-- Go dynamic values (`interface\x7b\x7d`), restricted to the payload types the
verified operations inspect.  Float payloads are opaque bit patterns. -/
inductive GoValue where
  | vBool (b : Bool)
  | vInt64 (n : Int)
  | vFloat32 (bits : Nat)
  | vFloat64 (bits : Nat)
  | vString (s : String)
  deriving DecidableEq

/-- `Entry` from the source: a stored value plus its absolute expiry
timestamp in unix nanoseconds, `0` meaning "never expires". -/
structure Entry where
  value : GoValue
  expire : Int
  deriving DecidableEq

/-- `Entry.IsExpired` from the source:
`entry.expire != 0 && entry.expire < time.Now().UnixNano()`. -/
def Entry.IsExpired (e : Entry) (now : Int) : Bool :=
  (!(e.expire == 0)) && (decide (e.expire < now))

/-- `CacheStat` from the source. -/
structure CacheStat where
  Entries : Int
  Expired : Int
  Hits : Int
  Misses : Int
  Total : Int
  deriving DecidableEq

/-- The zero-initialized `CacheStat\x7b\x7d`. -/
def newCacheStat : CacheStat := ⟨0, 0, 0, 0, 0⟩

/-- The error values of the package. -/
inductive CacheErr where
  | typeMismatch
  | noSuchKey
  | expiredKey
  | duplicateKey
  deriving DecidableEq

/-- `ExpireDuration`: the duration returned alongside a failed Get. -/
def ExpireDuration : Int := -1

/-- `LocalCache` from the source: the entry table, the default
expiration, the (at most one) eviction callback, and the stats block. -/
structure LocalCache where
  data : List (Key × Entry)
  expiration : Int
  evicted : Option Nat
  stats : CacheStat
  deriving DecidableEq

/-- One eviction-callback invocation: the key and the evicted entry. -/
abbrev EvictEvent := Key × Entry

/-- Go map read `c.data[key]`. -/
def lookupKey : List (Key × Entry) → Key → Option Entry
  | [], _ => none
  | kv :: rest, key => if kv.1 == key then some kv.2 else lookupKey rest key

/-- Go map `delete(c.data, key)`. -/
def eraseKey (data : List (Key × Entry)) (key : Key) : List (Key × Entry) :=
  data.filter (fun kv => kv.1 != key)

/-- Go map write `c.data[key] = e` (replaces any existing binding). -/
def insertKey (data : List (Key × Entry)) (key : Key) (e : Entry) :
    List (Key × Entry) :=
  eraseKey data key ++ [(key, e)]

/-- `NewLocalCache`: empty table, configured default expiration, no
callback, zero stats. -/
def newLocalCache (expiration : Int) : LocalCache :=
  ⟨[], expiration, none, newCacheStat⟩

/-- `SetEvictedFunc` from the source: stores `fn`; a second registration
hits `panic(ErrDuplicateEvictedFunc)`, modelled as `none`. -/
def SetEvictedFunc (c : LocalCache) (fn : Nat) : Option LocalCache :=
  if c.evicted.isSome then none
  else some { c with evicted := some fn }

/-- `search` from the source: yields the entry only when the key is
present and the entry is not expired. -/
def search (c : LocalCache) (key : Key) (now : Int) : Option Entry :=
  match lookupKey c.data key with
  | some entry => if !(entry.IsExpired now) then some entry else none
  | none => none

/-- `AddWithExpire` from the source: fails with `ErrDuplicateKey` when
`search` finds a live entry, otherwise inserts with absolute expiry
`now + duration` (or the never-expires sentinel `0` when
`duration ≤ 0`) and bumps `Entries` and `Total`. -/
def AddWithExpire (c : LocalCache) (key : Key) (value : GoValue)
    (duration : Int) (now : Int) : LocalCache × Option CacheErr :=
  match search c key now with
  | some _ => (c, some .duplicateKey)
  | none =>
    let e : Int := if duration > 0 then now + duration else 0
    ({ c with
        data := insertKey c.data key ⟨value, e⟩,
        stats := { c.stats with
          Entries := c.stats.Entries + 1,
          Total := c.stats.Total + 1 } },
      none)

/-- `Add` from the source: `AddWithExpire` with the default expiration. -/
def Add (c : LocalCache) (key : Key) (value : GoValue) (now : Int) :
    LocalCache × Option CacheErr :=
  AddWithExpire c key value c.expiration now

/-- `SetWithExpire` from the source: unconditional insert/overwrite with
absolute expiry `now + duration` (or `0` when `duration ≤ 0`); bumps
`Entries` and `Total` unconditionally. -/
def SetWithExpire (c : LocalCache) (key : Key) (value : GoValue)
    (duration : Int) (now : Int) : LocalCache :=
  { c with
      data := insertKey c.data key ⟨value, if duration > 0 then now + duration else 0⟩,
      stats := { c.stats with
        Entries := c.stats.Entries + 1,
        Total := c.stats.Total + 1 } }

/-- `Set` from the source: `SetWithExpire` with the default expiration. -/
def Set (c : LocalCache) (key : Key) (value : GoValue) (now : Int) :
    LocalCache :=
  SetWithExpire c key value c.expiration now

/-- The `(v, expire, err)` triple returned by `GetWithExpire`; the Go
`nil` interface value on failure is `none`. -/
structure GetResult where
  value : Option GoValue
  expire : Int
  err : Option CacheErr
  deriving DecidableEq

/-- `GetWithExpire` from the source.  Hit: bump `Hits`, return the value
and `e.expire - now`.  Present but expired: fire the callback when one
is registered, delete, `Entries--`, `Expired++`, `Misses++`, return
`ErrExpiredKey`.  Absent: `Misses++`, return `ErrNoSuchKey`. -/
def GetWithExpire (c : LocalCache) (key : Key) (now : Int) :
    LocalCache × List EvictEvent × GetResult :=
  match lookupKey c.data key with
  | some e =>
    if !(e.IsExpired now) then
      ({ c with stats := { c.stats with Hits := c.stats.Hits + 1 } },
        [], ⟨some e.value, e.expire - now, none⟩)
    else
      ({ c with
          data := eraseKey c.data key,
          stats := { c.stats with
            Entries := c.stats.Entries - 1,
            Expired := c.stats.Expired + 1,
            Misses := c.stats.Misses + 1 } },
        (if c.evicted.isSome then [(key, e)] else []),
        ⟨none, ExpireDuration, some .expiredKey⟩)
  | none =>
    ({ c with stats := { c.stats with Misses := c.stats.Misses + 1 } },
      [], ⟨none, ExpireDuration, some .noSuchKey⟩)

/-- `Get` from the source: `GetWithExpire` with the duration dropped. -/
def Get (c : LocalCache) (key : Key) (now : Int) :
    LocalCache × List EvictEvent × (Option GoValue × Option CacheErr) :=
  let r := GetWithExpire c key now
  (r.1, r.2.1, (r.2.2.value, r.2.2.err))

/-- Outcome of `GetFloat64`: a float64 payload, an error, or a runtime
panic from a failed type assertion. -/
inductive Float64Result where
  | ok (bits : Nat)
  | err (e : CacheErr)
  | goPanic
  deriving DecidableEq

/-- `GetFloat64` from the source.  The `float32` arm of the type switch
executes `float64(e.(float64))`: it asserts the interface to `float64`
while the dynamic type is `float32`, which panics at runtime
(modelled as `goPanic`).  The `float64` arm returns the value; any
other type yields `ErrTypeMismatch`. -/
def GetFloat64 (c : LocalCache) (key : Key) (now : Int) :
    LocalCache × List EvictEvent × Float64Result :=
  let r := Get c key now
  match r.2.2.2 with
  | some e => (r.1, r.2.1, .err e)
  | none =>
    match r.2.2.1 with
    | some (GoValue.vFloat32 _) => (r.1, r.2.1, .goPanic)
    | some (GoValue.vFloat64 bits) => (r.1, r.2.1, .ok bits)
    | _ => (r.1, r.2.1, .err .typeMismatch)

/-- `Expire` from the source: if the key is present (live or not), fire
the callback when registered, delete, `Entries--`, `Expired++`; absence
is not an error.  The Go function always returns a nil error. -/
def Expire (c : LocalCache) (key : Key) : LocalCache × List EvictEvent :=
  match lookupKey c.data key with
  | some e =>
    ({ c with
        data := eraseKey c.data key,
        stats := { c.stats with
          Entries := c.stats.Entries - 1,
          Expired := c.stats.Expired + 1 } },
      if c.evicted.isSome then [(key, e)] else [])
  | none => (c, [])

/-- `Flush` from the source: fire the callback (when registered) for
every stored entry in table order, clear the table, roll `Entries` into
`Expired`, leave the other counters alone. -/
def Flush (c : LocalCache) : LocalCache × List EvictEvent :=
  ({ c with
      data := [],
      stats := { c.stats with
        Expired := c.stats.Expired + c.stats.Entries,
        Entries := 0 } },
    if c.evicted.isSome then c.data else [])

/-- `Reset` from the source: same sweep and clear as `Flush`, but the
stats block is replaced by a fresh zero `CacheStat`. -/
def Reset (c : LocalCache) : LocalCache × List EvictEvent :=
  ({ c with data := [], stats := newCacheStat },
    if c.evicted.isSome then c.data else [])

/-- The loop body of `expireKeys`: scan the table once and, for every
expired entry, delete it and fire the callback when registered.  The
source mutates no counter here. -/
def expireKeysLoop (registered : Bool) (now : Int) :
    List (Key × Entry) → List (Key × Entry) × List EvictEvent
  | [] => ([], [])
  | kv :: rest =>
    let r := expireKeysLoop registered now rest
    if kv.2.IsExpired now then
      (r.1, (if registered then [kv] else []) ++ r.2)
    else
      (kv :: r.1, r.2)

/-- `expireKeys` from the source: one tick of the background sweep. -/
def expireKeys (c : LocalCache) (now : Int) : LocalCache × List EvictEvent :=
  let r := expireKeysLoop c.evicted.isSome now c.data
  ({ c with data := r.1 }, r.2)

/-- The keys whose entries are expired at `now`, in table order. -/
def expiredKeysOf (c : LocalCache) (now : Int) : List Key :=
  (c.data.filter (fun kv => kv.2.IsExpired now)).map Prod.fst

/-- Calling `Expire` on each key of `keys` in order, accumulating the
callback invocations. -/
def ExpireAll : LocalCache → List Key → LocalCache × List EvictEvent
  | c, [] => (c, [])
  | c, k :: rest =>
    let r := Expire c k
    let r' := ExpireAll r.1 rest
    (r'.1, r.2 ++ r'.2)

/-! Helper lemmas about the table operations. -/

theorem lookupKey_eraseKey_self (l : List (Key × Entry)) (k : Key) :
    lookupKey (eraseKey l k) k = none := by
  induction l with
  | nil => rfl
  | cons kv rest ih =>
    unfold eraseKey at ih ⊢
    rw [List.filter_cons]
    by_cases h : kv.1 = k
    · simp [h, ih]
    · simpa [lookupKey, bne, h] using ih

theorem lookupKey_insertKey_self (l : List (Key × Entry)) (k : Key) (e : Entry) :
    lookupKey (insertKey l k e) k = some e := by
  unfold insertKey
  induction l with
  | nil => simp [eraseKey, lookupKey]
  | cons kv rest ih =>
    unfold eraseKey at ih ⊢
    rw [List.filter_cons]
    by_cases h : kv.1 = k
    · simp [h, ih]
    · simpa [lookupKey, bne, h] using ih

theorem eraseKey_of_not_mem (l : List (Key × Entry)) (k : Key)
    (h : k ∉ l.map Prod.fst) : eraseKey l k = l := by
  unfold eraseKey
  refine List.filter_eq_self.mpr ?_
  intro kv hkv
  have : kv.1 ≠ k := by
    intro hc
    exact h (List.mem_map.mpr ⟨kv, hkv, hc⟩)
  simp [bne, this]

/-! Concrete states used by witnesses and counterexamples. -/

/-- A cache holding one never-expiring entry under key "k". -/
def liveCache : LocalCache :=
  ⟨[("k", ⟨GoValue.vInt64 7, 0⟩)], 100, none, newCacheStat⟩

/-- A cache with a registered callback holding one entry under key "k"
that expires at t = 5, with `Entries = 1` and `Total = 1`. -/
def deadCache : LocalCache :=
  ⟨[("k", ⟨GoValue.vInt64 9, 5⟩)], 100, some 0, ⟨1, 0, 0, 0, 1⟩⟩

/-! The claims. -/

/-- C7: Flush fires the eviction callback once per stored entry (when a
callback is registered), clears the table, leaves Hits, Misses and
Total unchanged, adds the pre-flush Entries count to Expired, and sets
Entries to zero. -/
theorem c7_flush_frame (c : LocalCache) :
    (Flush c).2 = (if c.evicted.isSome then c.data else []) ∧
    (Flush c).1.data = [] ∧
    (Flush c).1.stats.Hits = c.stats.Hits ∧
    (Flush c).1.stats.Misses = c.stats.Misses ∧
    (Flush c).1.stats.Total = c.stats.Total ∧
    (Flush c).1.stats.Expired = c.stats.Expired + c.stats.Entries ∧
    (Flush c).1.stats.Entries = 0 := by
  simp [Flush]

/-- C8: Reset fires the eviction callback once per stored entry (when a
callback is registered), clears the table, and zeroes every counter
including the cumulative Hits, Misses and Total. -/
theorem c8_reset_zeroes (c : LocalCache) :
    (Reset c).2 = (if c.evicted.isSome then c.data else []) ∧
    (Reset c).1.data = [] ∧
    (Reset c).1.stats = ⟨0, 0, 0, 0, 0⟩ := by
  simp [Reset, newCacheStat]

/-- C9: SetEvictedFunc panics exactly when a callback is already
registered; the first call on a fresh engine succeeds and stores the
function, and any second call on the resulting engine panics. -/
theorem c9_set_evicted_once (c : LocalCache) (f g : Nat) (d : Int) :
    (SetEvictedFunc c f = none ↔ c.evicted.isSome = true) ∧
    SetEvictedFunc (newLocalCache d) f
      = some { newLocalCache d with evicted := some f } ∧
    SetEvictedFunc { newLocalCache d with evicted := some f } g = none := by
  refine ⟨?_, ?_, ?_⟩
  · unfold SetEvictedFunc
    by_cases h : c.evicted.isSome = true
    · simp [h]
    · simp [h]
  · simp [SetEvictedFunc, newLocalCache]
  · simp [SetEvictedFunc, newLocalCache]

/-- C10: a Get that finds a live entry changes only the Hits counter:
the table, the other four counters, the callback slot and the default
expiration are untouched, and no eviction callback fires. -/
theorem c10_get_hit_frame (c : LocalCache) (key : Key) (e : Entry) (now : Int)
    (hfind : lookupKey c.data key = some e)
    (hlive : e.IsExpired now = false) :
    (GetWithExpire c key now).1.data = c.data ∧
    (GetWithExpire c key now).2.1 = [] ∧
    (GetWithExpire c key now).1.stats.Entries = c.stats.Entries ∧
    (GetWithExpire c key now).1.stats.Expired = c.stats.Expired ∧
    (GetWithExpire c key now).1.stats.Misses = c.stats.Misses ∧
    (GetWithExpire c key now).1.stats.Total = c.stats.Total ∧
    (GetWithExpire c key now).1.stats.Hits = c.stats.Hits + 1 ∧
    (GetWithExpire c key now).1.evicted = c.evicted ∧
    (GetWithExpire c key now).1.expiration = c.expiration := by
  unfold GetWithExpire
  rw [hfind]
  simp [hlive]

/-- Witness for C10 at a concrete live hit. -/
theorem c10_get_hit_frame_witness :
    lookupKey liveCache.data "k" = some ⟨GoValue.vInt64 7, 0⟩ ∧
    Entry.IsExpired ⟨GoValue.vInt64 7, 0⟩ 5 = false ∧
    (GetWithExpire liveCache "k" 5).1.data = liveCache.data ∧
    (GetWithExpire liveCache "k" 5).1.stats.Hits = liveCache.stats.Hits + 1 :=
  ⟨by decide, by decide,
    (c10_get_hit_frame liveCache "k" ⟨GoValue.vInt64 7, 0⟩ 5 (by decide) (by decide)).1,
    (c10_get_hit_frame liveCache "k" ⟨GoValue.vInt64 7, 0⟩ 5 (by decide)
      (by decide)).2.2.2.2.2.2.1⟩

/-- C1: a Get that finds an expired entry fires the eviction callback
(when one is registered) with the stale entry, removes the entry from
the table, decrements Entries, increments Expired and Misses, and fails
with the key-expired error; a subsequent Get on the same key (at any
observation time, with no intervening insert) fails with the
no-such-key error. -/
theorem c1_get_expired_evicts (c : LocalCache) (key : Key) (e : Entry)
    (now now' : Int)
    (hfind : lookupKey c.data key = some e)
    (hdead : e.IsExpired now = true) :
    (GetWithExpire c key now).2.1
      = (if c.evicted.isSome then [(key, e)] else []) ∧
    (GetWithExpire c key now).1.data = eraseKey c.data key ∧
    lookupKey (GetWithExpire c key now).1.data key = none ∧
    (GetWithExpire c key now).1.stats.Entries = c.stats.Entries - 1 ∧
    (GetWithExpire c key now).1.stats.Expired = c.stats.Expired + 1 ∧
    (GetWithExpire c key now).1.stats.Misses = c.stats.Misses + 1 ∧
    (GetWithExpire c key now).2.2.err = some CacheErr.expiredKey ∧
    (GetWithExpire (GetWithExpire c key now).1 key now').2.2.err
      = some CacheErr.noSuchKey := by
  have hstep :
      GetWithExpire c key now
        = ({ c with
              data := eraseKey c.data key,
              stats := { c.stats with
                Entries := c.stats.Entries - 1,
                Expired := c.stats.Expired + 1,
                Misses := c.stats.Misses + 1 } },
            (if c.evicted.isSome then [(key, e)] else []),
            ⟨none, ExpireDuration, some .expiredKey⟩) := by
    unfold GetWithExpire
    rw [hfind]
    simp [hdead]
  refine ⟨by rw [hstep], by rw [hstep], ?_, by rw [hstep], by rw [hstep],
    by rw [hstep], by rw [hstep], ?_⟩
  · rw [hstep]
    exact lookupKey_eraseKey_self c.data key
  · rw [hstep]
    unfold GetWithExpire
    rw [show lookupKey (eraseKey c.data key) key = none from
      lookupKey_eraseKey_self c.data key]

/-- Witness for C1 at a concrete expired entry observed at t = 10. -/
theorem c1_get_expired_evicts_witness :
    lookupKey deadCache.data "k" = some ⟨GoValue.vInt64 9, 5⟩ ∧
    Entry.IsExpired ⟨GoValue.vInt64 9, 5⟩ 10 = true ∧
    (GetWithExpire deadCache "k" 10).2.2.err = some CacheErr.expiredKey ∧
    (GetWithExpire (GetWithExpire deadCache "k" 10).1 "k" 11).2.2.err
      = some CacheErr.noSuchKey :=
  ⟨by decide, by decide,
    (c1_get_expired_evicts deadCache "k" ⟨GoValue.vInt64 9, 5⟩ 10 11
      (by decide) (by decide)).2.2.2.2.2.2.1,
    (c1_get_expired_evicts deadCache "k" ⟨GoValue.vInt64 9, 5⟩ 10 11
      (by decide) (by decide)).2.2.2.2.2.2.2⟩

/-- C3: an entry inserted with TTL ≤ 0 (via SetWithExpire, or via
AddWithExpire when the Add succeeds) gets the never-expires sentinel,
and Get at every later observation time returns the stored value with
no error. -/
theorem c3_nonpos_ttl_never_expires (c : LocalCache) (key : Key)
    (v : GoValue) (d now now' : Int) (hd : d ≤ 0) :
    (GetWithExpire (SetWithExpire c key v d now) key now').2.2.value = some v ∧
    (GetWithExpire (SetWithExpire c key v d now) key now').2.2.err = none ∧
    (∀ c', AddWithExpire c key v d now = (c', none) →
      (GetWithExpire c' key now').2.2.value = some v ∧
      (GetWithExpire c' key now').2.2.err = none) := by
  have hsentinel : (if d > 0 then now + d else 0) = 0 := by
    rw [if_neg]
    omega
  refine ⟨?_, ?_, ?_⟩
  · unfold SetWithExpire GetWithExpire
    rw [hsentinel, lookupKey_insertKey_self]
    simp [Entry.IsExpired]
  · unfold SetWithExpire GetWithExpire
    rw [hsentinel, lookupKey_insertKey_self]
    simp [Entry.IsExpired]
  · intro c' hadd
    unfold AddWithExpire at hadd
    cases hs : search c key now with
    | some e =>
      rw [hs] at hadd
      simp at hadd
    | none =>
      rw [hs] at hadd
      simp only [Prod.mk.injEq] at hadd
      obtain ⟨hc', -⟩ := hadd
      subst hc'
      unfold GetWithExpire
      rw [hsentinel, lookupKey_insertKey_self]
      simp [Entry.IsExpired]

/-- Witness for C3: TTL -3 at t = 5, observed at t = 1000000. -/
theorem c3_nonpos_ttl_never_expires_witness :
    (-3 : Int) ≤ 0 ∧
    (GetWithExpire (SetWithExpire (newLocalCache 100) "k" (GoValue.vInt64 7)
      (-3) 5) "k" 1000000).2.2.value = some (GoValue.vInt64 7) ∧
    (GetWithExpire (SetWithExpire (newLocalCache 100) "k" (GoValue.vInt64 7)
      (-3) 5) "k" 1000000).2.2.err = none :=
  ⟨by decide,
    (c3_nonpos_ttl_never_expires (newLocalCache 100) "k" (GoValue.vInt64 7)
      (-3) 5 1000000 (by decide)).1,
    (c3_nonpos_ttl_never_expires (newLocalCache 100) "k" (GoValue.vInt64 7)
      (-3) 5 1000000 (by decide)).2.1⟩

/-- C2: Add fails with the duplicate-key error exactly when the key
holds a live entry; against an expired-but-not-reaped entry it succeeds,
replaces the entry, and the new value is immediately retrievable. -/
theorem c2_add_duplicate_iff_live (c : LocalCache) (key : Key) (v : GoValue)
    (d now : Int) :
    ((AddWithExpire c key v d now).2 = some CacheErr.duplicateKey
      ↔ ∃ e, lookupKey c.data key = some e ∧ e.IsExpired now = false) ∧
    (∀ e, lookupKey c.data key = some e → e.IsExpired now = true →
      (AddWithExpire c key v d now).2 = none ∧
      (GetWithExpire (AddWithExpire c key v d now).1 key now).2.2.value
        = some v ∧
      (GetWithExpire (AddWithExpire c key v d now).1 key now).2.2.err
        = none) := by
  have hlive : Entry.IsExpired ⟨v, if d > 0 then now + d else 0⟩ now = false := by
    unfold Entry.IsExpired
    by_cases hd : d > 0
    · rw [if_pos hd]
      have hnl : ¬(now + d < now) := by omega
      simp [hnl]
    · rw [if_neg hd]
      simp
  constructor
  · cases hl : lookupKey c.data key with
    | none =>
      have hs : search c key now = none := by
        unfold search
        rw [hl]
      unfold AddWithExpire
      rw [hs]
      simp [hl]
    | some e =>
      by_cases hexp : e.IsExpired now = true
      · have hs : search c key now = none := by
          unfold search
          rw [hl]
          simp [hexp]
        unfold AddWithExpire
        rw [hs]
        simp [hl, hexp]
      · have hb : e.IsExpired now = false := by
          simpa using hexp
        have hs : search c key now = some e := by
          unfold search
          rw [hl]
          simp [hb]
        unfold AddWithExpire
        rw [hs]
        simp [hl, hb]
  · intro e hl hexp
    have hs : search c key now = none := by
      unfold search
      rw [hl]
      simp [hexp]
    unfold AddWithExpire
    rw [hs]
    refine ⟨rfl, ?_, ?_⟩
    · unfold GetWithExpire
      rw [lookupKey_insertKey_self]
      simp [hlive]
    · unfold GetWithExpire
      rw [lookupKey_insertKey_self]
      simp [hlive]

/-- Witness for C2: Add over the expired entry of `deadCache` at t = 10
succeeds and the new value is retrievable. -/
theorem c2_add_duplicate_iff_live_witness :
    lookupKey deadCache.data "k" = some ⟨GoValue.vInt64 9, 5⟩ ∧
    Entry.IsExpired ⟨GoValue.vInt64 9, 5⟩ 10 = true ∧
    (AddWithExpire deadCache "k" (GoValue.vInt64 3) 100 10).2 = none ∧
    (GetWithExpire (AddWithExpire deadCache "k" (GoValue.vInt64 3) 100 10).1
      "k" 10).2.2.value = some (GoValue.vInt64 3) :=
  ⟨by decide, by decide,
    ((c2_add_duplicate_iff_live deadCache "k" (GoValue.vInt64 3) 100 10).2
      ⟨GoValue.vInt64 9, 5⟩ (by decide) (by decide)).1,
    ((c2_add_duplicate_iff_live deadCache "k" (GoValue.vInt64 3) 100 10).2
      ⟨GoValue.vInt64 9, 5⟩ (by decide) (by decide)).2.1⟩

/-- A cache holding one live entry whose stored value has dynamic type
float32 (bit pattern of the Go literal float32(0.123)). -/
def float32Cache : LocalCache :=
  ⟨[("f", ⟨GoValue.vFloat32 1039516303, 0⟩)], 100, none, newCacheStat⟩

/-- C5 (code bug): GetFloat64 on a live entry of dynamic type float32
reaches the `float32` arm of the type switch, which executes
`float64(e.(float64))`; the assertion to float64 fails on the float32
payload, so the call aborts with a runtime panic instead of returning
the widened value. -/
theorem c5_getfloat64_float32_aborts :
    (GetFloat64 float32Cache "f" 3).2.2 = Float64Result.goPanic := by
  decide

/-- C6 counterexample: on a live entry with the never-expires sentinel
(`expire = 0`) observed at t = 100, GetWithExpire succeeds but the
remaining-time component is `0 - 100 = -100`: neither the no-expiry
sentinel `0` nor the `ExpireDuration` sentinel. -/
theorem c6_counterexample_no_sentinel :
    (GetWithExpire liveCache "k" 100).2.2.err = none ∧
    (GetWithExpire liveCache "k" 100).2.2.expire = -100 ∧
    (GetWithExpire liveCache "k" 100).2.2.expire ≠ 0 ∧
    (GetWithExpire liveCache "k" 100).2.2.expire ≠ ExpireDuration := by
  refine ⟨by decide, by decide, by decide, by decide⟩

/-- C6 amended: on a live entry with no expiry set, GetWithExpire
succeeds and returns `e.expire - now = -now` as the remaining-time
component, the negation of the observation timestamp rather than any
fixed sentinel. -/
theorem c6_amended_remaining_is_neg_now (c : LocalCache) (key : Key)
    (e : Entry) (now : Int)
    (hfind : lookupKey c.data key = some e) (hz : e.expire = 0) :
    (GetWithExpire c key now).2.2.err = none ∧
    (GetWithExpire c key now).2.2.value = some e.value ∧
    (GetWithExpire c key now).2.2.expire = -now := by
  have hlive : e.IsExpired now = false := by
    unfold Entry.IsExpired
    rw [hz]
    simp
  unfold GetWithExpire
  rw [hfind]
  simp [hlive, hz]

/-- Witness for the amended C6 at a concrete never-expiring entry. -/
theorem c6_amended_remaining_is_neg_now_witness :
    lookupKey liveCache.data "k" = some ⟨GoValue.vInt64 7, 0⟩ ∧
    (GetWithExpire liveCache "k" 42).2.2.err = none ∧
    (GetWithExpire liveCache "k" 42).2.2.expire = -42 :=
  ⟨by decide,
    (c6_amended_remaining_is_neg_now liveCache "k" ⟨GoValue.vInt64 7, 0⟩ 42
      (by decide) rfl).1,
    (c6_amended_remaining_is_neg_now liveCache "k" ⟨GoValue.vInt64 7, 0⟩ 42
      (by decide) rfl).2.2⟩

/-! Characterizations of one sweep tick and of repeated Expire calls,
used to settle the sweep-vs-Expire comparison. -/

theorem expireKeysLoop_spec (registered : Bool) (now : Int)
    (l : List (Key × Entry)) :
    expireKeysLoop registered now l
      = (l.filter (fun kv => !(kv.2.IsExpired now)),
         if registered then l.filter (fun kv => kv.2.IsExpired now) else []) := by
  induction l with
  | nil => cases registered <;> simp [expireKeysLoop]
  | cons kv rest ih =>
    unfold expireKeysLoop
    rw [ih]
    by_cases h : kv.2.IsExpired now = true
    · cases registered <;> simp [h, List.filter_cons]
    · have hb : kv.2.IsExpired now = false := by simpa using h
      cases registered <;> simp [hb, List.filter_cons]

theorem expireKeys_spec (c : LocalCache) (now : Int) :
    expireKeys c now
      = ({ c with data := c.data.filter (fun kv => !(kv.2.IsExpired now)) },
         if c.evicted.isSome then
           c.data.filter (fun kv => kv.2.IsExpired now)
         else []) := by
  unfold expireKeys
  rw [expireKeysLoop_spec]

theorem ExpireAll_cons_ne (kv : Key × Entry) (ks : List Key) :
    ∀ (rest : List (Key × Entry)) (E : Int) (V : Option Nat) (S : CacheStat),
    kv.1 ∉ ks →
    ExpireAll ⟨kv :: rest, E, V, S⟩ ks
      = (⟨kv :: (ExpireAll ⟨rest, E, V, S⟩ ks).1.data, E, V,
          (ExpireAll ⟨rest, E, V, S⟩ ks).1.stats⟩,
         (ExpireAll ⟨rest, E, V, S⟩ ks).2) := by
  induction ks with
  | nil =>
    intro rest E V S _
    simp [ExpireAll]
  | cons k ks' ih =>
    intro rest E V S h
    have hne : kv.1 ≠ k := fun hc => h (by simp [hc])
    have hks' : kv.1 ∉ ks' := fun hc => h (by simp [hc])
    have hstep : ∀ (c : LocalCache),
        ExpireAll c (k :: ks')
          = ((ExpireAll (Expire c k).1 ks').1,
             (Expire c k).2 ++ (ExpireAll (Expire c k).1 ks').2) :=
      fun c => rfl
    cases hlr : lookupKey rest k with
    | none =>
      have h1 : Expire ⟨kv :: rest, E, V, S⟩ k = (⟨kv :: rest, E, V, S⟩, []) := by
        unfold Expire
        have : lookupKey (kv :: rest) k = none := by
          unfold lookupKey
          simp [hne, hlr]
        rw [this]
      have h2 : Expire ⟨rest, E, V, S⟩ k = (⟨rest, E, V, S⟩, []) := by
        unfold Expire
        rw [show lookupKey rest k = none from hlr]
      rw [hstep, h1, hstep, h2]
      rw [ih rest E V S hks']
    | some e =>
      have h1 : Expire ⟨kv :: rest, E, V, S⟩ k
          = (⟨kv :: eraseKey rest k, E, V,
              ⟨S.Entries - 1, S.Expired + 1, S.Hits, S.Misses, S.Total⟩⟩,
             if V.isSome then [(k, e)] else []) := by
        have hl : lookupKey (kv :: rest) k = some e := by
          unfold lookupKey
          simp [hne, hlr]
        have her : eraseKey (kv :: rest) k = kv :: eraseKey rest k := by
          unfold eraseKey
          rw [List.filter_cons, if_pos (by simp [hne])]
        unfold Expire
        rw [hl]
        simp [her]
      have h2 : Expire ⟨rest, E, V, S⟩ k
          = (⟨eraseKey rest k, E, V,
              ⟨S.Entries - 1, S.Expired + 1, S.Hits, S.Misses, S.Total⟩⟩,
             if V.isSome then [(k, e)] else []) := by
        unfold Expire
        rw [show lookupKey rest k = some e from hlr]
      rw [hstep, h1, hstep, h2]
      rw [ih (eraseKey rest k) E V
        ⟨S.Entries - 1, S.Expired + 1, S.Hits, S.Misses, S.Total⟩ hks']

theorem ExpireAll_expired_spec (now : Int) :
    ∀ (l : List (Key × Entry)) (E : Int) (V : Option Nat) (S : CacheStat),
    (l.map Prod.fst).Nodup →
    ExpireAll ⟨l, E, V, S⟩
        ((l.filter (fun kv => kv.2.IsExpired now)).map Prod.fst)
      = (⟨l.filter (fun kv => !(kv.2.IsExpired now)), E, V,
          ⟨S.Entries - (l.countP (fun kv => kv.2.IsExpired now) : Int),
           S.Expired + (l.countP (fun kv => kv.2.IsExpired now) : Int),
           S.Hits, S.Misses, S.Total⟩⟩,
         if V.isSome then l.filter (fun kv => kv.2.IsExpired now) else []) := by
  intro l
  induction l with
  | nil =>
    intro E V S _
    obtain ⟨SE, SX, SH, SM, ST⟩ := S
    cases V <;> simp [ExpireAll]
  | cons kv rest ih =>
    intro E V S hnd
    have hnd' : (kv.1 :: rest.map Prod.fst).Nodup := by simpa using hnd
    have hkv : kv.1 ∉ rest.map Prod.fst := (List.nodup_cons.mp hnd').1
    have hrest : (rest.map Prod.fst).Nodup := (List.nodup_cons.mp hnd').2
    by_cases h : kv.2.IsExpired now = true
    · have hfe : (kv :: rest).filter (fun kv => kv.2.IsExpired now)
          = kv :: rest.filter (fun kv => kv.2.IsExpired now) := by
        rw [List.filter_cons]
        simp [h]
      have hfl : (kv :: rest).filter (fun kv => !(kv.2.IsExpired now))
          = rest.filter (fun kv => !(kv.2.IsExpired now)) := by
        rw [List.filter_cons]
        simp [h]
      have hcnt : (kv :: rest).countP (fun kv => kv.2.IsExpired now)
          = rest.countP (fun kv => kv.2.IsExpired now) + 1 := by
        simp [List.countP_cons, h]
      have hExp : Expire ⟨kv :: rest, E, V, S⟩ kv.1
          = (⟨rest, E, V,
              ⟨S.Entries - 1, S.Expired + 1, S.Hits, S.Misses, S.Total⟩⟩,
             if V.isSome then [(kv.1, kv.2)] else []) := by
        have hl : lookupKey (kv :: rest) kv.1 = some kv.2 := by
          unfold lookupKey
          simp
        have her : eraseKey (kv :: rest) kv.1 = rest := by
          unfold eraseKey
          rw [List.filter_cons, if_neg (by simp)]
          exact eraseKey_of_not_mem rest kv.1 hkv
        unfold Expire
        rw [hl]
        simp [her]
      rw [hfe, hfl, hcnt]
      rw [List.map_cons]
      rw [show ∀ (c : LocalCache) (k : Key) (ks : List Key),
          ExpireAll c (k :: ks)
            = ((ExpireAll (Expire c k).1 ks).1,
               (Expire c k).2 ++ (ExpireAll (Expire c k).1 ks).2) from
        fun c k ks => rfl]
      rw [hExp]
      rw [ih E V ⟨S.Entries - 1, S.Expired + 1, S.Hits, S.Misses, S.Total⟩ hrest]
      cases V <;> simp <;> omega
    · have hb : kv.2.IsExpired now = false := by simpa using h
      have hfe : (kv :: rest).filter (fun kv => kv.2.IsExpired now)
          = rest.filter (fun kv => kv.2.IsExpired now) := by
        rw [List.filter_cons]
        simp [hb]
      have hfl : (kv :: rest).filter (fun kv => !(kv.2.IsExpired now))
          = kv :: rest.filter (fun kv => !(kv.2.IsExpired now)) := by
        rw [List.filter_cons]
        simp [hb]
      have hcnt : (kv :: rest).countP (fun kv => kv.2.IsExpired now)
          = rest.countP (fun kv => kv.2.IsExpired now) := by
        simp [List.countP_cons, hb]
      have hnotin : kv.1 ∉ (rest.filter
          (fun kv => kv.2.IsExpired now)).map Prod.fst := by
        intro hc
        apply hkv
        obtain ⟨x, hx, hx1⟩ := List.mem_map.mp hc
        exact List.mem_map.mpr ⟨x, List.mem_of_mem_filter hx, hx1⟩
      rw [hfe, hfl, hcnt]
      rw [ExpireAll_cons_ne kv _ rest E V S hnotin]
      rw [ih E V S hrest]

/-- C4 counterexample: on a cache whose single entry is expired at
t = 10 (with a callback registered and `Entries = 1`), one sweep tick
leaves `Entries = 1` and `Expired = 0`, while calling Expire on the
expired key yields `Entries = 0` and `Expired = 1`; the two outcomes
are not equal, so a sweep tick is not identical to Expire-per-key. -/
theorem c4_counterexample_sweep_skips_stats :
    (expireKeys deadCache 10).1.stats.Entries = 1 ∧
    (expireKeys deadCache 10).1.stats.Expired = 0 ∧
    (ExpireAll deadCache (expiredKeysOf deadCache 10)).1.stats.Entries = 0 ∧
    (ExpireAll deadCache (expiredKeysOf deadCache 10)).1.stats.Expired = 1 ∧
    expireKeys deadCache 10 ≠ ExpireAll deadCache (expiredKeysOf deadCache 10) := by
  refine ⟨by decide, by decide, by decide, by decide, by decide⟩

/-- C4 amended: one sweep tick removes exactly the entries expired at
that moment and fires the eviction callback once per such entry, in
table order — the same table contents and the same callback invocations
as calling Expire on each expired key — but the sweep leaves every
stats counter unchanged, whereas the Expire calls decrement Entries and
increment Expired once per expired key. -/
theorem c4_amended_sweep_vs_expire (c : LocalCache) (now : Int)
    (hnd : (c.data.map Prod.fst).Nodup) :
    (expireKeys c now).1.data = (ExpireAll c (expiredKeysOf c now)).1.data ∧
    (expireKeys c now).2 = (ExpireAll c (expiredKeysOf c now)).2 ∧
    (expireKeys c now).1.stats = c.stats ∧
    (ExpireAll c (expiredKeysOf c now)).1.stats
      = ⟨c.stats.Entries - (c.data.countP (fun kv => kv.2.IsExpired now) : Int),
         c.stats.Expired + (c.data.countP (fun kv => kv.2.IsExpired now) : Int),
         c.stats.Hits, c.stats.Misses, c.stats.Total⟩ := by
  obtain ⟨data, E, V, S⟩ := c
  have hnd2 : (data.map Prod.fst).Nodup := hnd
  have he := ExpireAll_expired_spec now data E V S hnd2
  have hs := expireKeys_spec ⟨data, E, V, S⟩ now
  simp only [expiredKeysOf]
  rw [hs, he]
  exact ⟨rfl, rfl, rfl, rfl⟩

/-- Witness for the amended C4 at the concrete expired-entry cache. -/
theorem c4_amended_sweep_vs_expire_witness :
    (deadCache.data.map Prod.fst).Nodup ∧
    (expireKeys deadCache 10).1.stats = deadCache.stats ∧
    (expireKeys deadCache 10).2
      = (ExpireAll deadCache (expiredKeysOf deadCache 10)).2 :=
  ⟨by decide,
    (c4_amended_sweep_vs_expire deadCache 10 (by decide)).2.2.1,
    (c4_amended_sweep_vs_expire deadCache 10 (by decide)).2.1⟩

end LocalCacheModel
